import Mathlib

/-
Verification of the resolution-and-cache subsystem of go-fedinfo
(src/fedinfo.go): a two-hop nodeinfo discovery resolver in front of a
TTL cache.  The Go code is embedded shallowly: maps become association
lists, `time.Time`/`time.Duration` become `Int` (nanoseconds), the two
outbound HTTP fetches become an explicit network oracle, and the global
cache mutated by `nodeInfoRoute` is threaded as explicit state.
-/

set_option autoImplicit false

namespace Fedinfo

/-- Software identity reported by a remote instance (struct `Software`,
src/fedinfo.go lines 134-137). -/
structure Software where
  name : String
  version : String
deriving DecidableEq, Repr

/-- The zero value of the Go struct `Software`: both fields empty. -/
def Software.zero : Software := ⟨"", ""⟩

/-- One link of a discovery document (struct `Link`, lines 126-129). -/
structure Link where
  rel : String
  href : String
deriving DecidableEq, Repr

/-- Discovery document fetched from the well-known endpoint
(struct `WellKnownNodeInfo`, lines 123-125). -/
structure WellKnownNodeInfo where
  links : List Link
deriving DecidableEq, Repr

/-- Response body of the route (struct `NodeInfo`, lines 130-133). -/
structure NodeInfo where
  domain : String
  software : Software
deriving DecidableEq, Repr

/-- The 2.0 schema identifier matched at line 178. -/
def rel20 : String := "http://nodeinfo.diaspora.software/ns/schema/2.0"

/-- The 2.1 schema identifier matched at line 180. -/
def rel21 : String := "http://nodeinfo.diaspora.software/ns/schema/2.1"

/-- Lookup in an association list, modelling a read `m[k]` of a Go map. -/
def getA {α : Type} (m : List (String × α)) (k : String) : Option α :=
  match m with
  | [] => none
  | (k1, v) :: rest => if k1 = k then some v else getA rest k

/-- Update of an association list, modelling a write `m[k] = v` of a Go
map: the binding for `k` is replaced in place, or appended if absent. -/
def setA {α : Type} (m : List (String × α)) (k : String) (v : α) :
    List (String × α) :=
  match m with
  | [] => [(k, v)]
  | (k1, v1) :: rest =>
      if k1 = k then (k1, v) :: rest else (k1, v1) :: setA rest k v

/-- The TTL cache (struct `Cache`, lines 209-214).  The Go maps `Data`
and `Age` can be nil, modelled as `none`; times are `Int` nanoseconds.
The mutex serializes calls and is not represented. -/
structure Cache where
  TTL : Int
  Data : Option (List (String × Software))
  Age : Option (List (String × Int))
deriving DecidableEq, Repr

/-- Replaces nil maps by fresh empty maps (`Cache.segfaultPrevention`,
lines 242-249). -/
def Cache.segfaultPrevention (c : Cache) : Cache :=
  { c with Data := some (c.Data.getD []), Age := some (c.Age.getD []) }

/-- The stored value for a key of the cache's value map. -/
def Cache.dataOf (c : Cache) (k : String) : Option Software :=
  getA (c.Data.getD []) k

/-- The recorded observation timestamp for a key of the cache's
timestamp map. -/
def Cache.ageOf (c : Cache) (k : String) : Option Int :=
  getA (c.Age.getD []) k

/-- `Cache.Get` (lines 216-232).  `now` stands for `time.Now()`.
Returns the pair `(sfw, foundAndNotStale)` together with the cache
state after the call (the Go method mutates the receiver in place). -/
def Cache.get (c : Cache) (now : Int) (key : String) :
    (Software × Bool) × Cache :=
  let c1 := c.segfaultPrevention
  match getA (c1.Age.getD []) key with
  | some age =>
      if now - age > c1.TTL then ((Software.zero, false), c1)
      else
        match getA (c1.Data.getD []) key with
        | some sfw => ((sfw, true), c1)
        | none => ((Software.zero, false), c1)
  | none =>
      match getA (c1.Data.getD []) key with
      | some sfw =>
          ((sfw, true),
           { c1 with Age := some (setA (c1.Age.getD []) key now) })
      | none => ((Software.zero, false), c1)

/-- `Cache.Set` (lines 234-240): unconditionally stores the value and
stamps the observation time. -/
def Cache.set (c : Cache) (now : Int) (key : String) (sfw : Software) :
    Cache :=
  let c1 := c.segfaultPrevention
  { c1 with
      Data := some (setA (c1.Data.getD []) key sfw),
      Age := some (setA (c1.Age.getD []) key now) }

/-- A parsed URL, the fields of Go's `url.URL` the route reads. -/
structure ParsedURL where
  scheme : String
  host : String
  path : String
deriving DecidableEq, Repr

/-- Splits a character list at the first occurrence of `://`, giving
the text before it and the text after it, or `none` when it does not
occur. -/
def splitScheme (acc : List Char) : List Char → Option (List Char × List Char)
  | [] => none
  | ':' :: '/' :: '/' :: rest => some (acc.reverse, rest)
  | ch :: rest => splitScheme (ch :: acc) rest

/-- Splits a character list at the first `/`: the part before it (the
host) and the part from it on (the path). -/
def hostPathSplit : List Char → List Char × List Char
  | [] => ([], [])
  | '/' :: rest => ([], '/' :: rest)
  | ch :: rest =>
      let hp := hostPathSplit rest
      (ch :: hp.1, hp.2)

/-- Model of Go's `net/url.Parse` (standard-library dependency of the
route, line 149), restricted to the behaviour the route relies on:
parsing fails on a control character in the input; an input without
`://` parses with empty scheme and host and the whole input as the
path; otherwise the text up to the first `/` after `://` is the host
and the rest, with its leading slash, is the path. -/
def urlParse (s : String) : Option ParsedURL :=
  if s.toList.any (fun ch => ch.toNat < 32) then none
  else
    match splitScheme [] s.toList with
    | none => some ⟨"", "", s⟩
    | some sr =>
        let hp := hostPathSplit sr.2
        some ⟨String.mk sr.1, String.mk hp.1, String.mk hp.2⟩

/-- Domain extraction after parsing (lines 153-157): the path when the
host component is empty, the host otherwise. -/
def normalizeDomain (p : ParsedURL) : String :=
  if p.host = "" then p.path else p.host

/-- Error classification of the route.  `missingParam` embeds
`ErrMissingParam` (line 85), `badRequest` embeds `ErrBadRequest`
(line 86); `fetchError` stands for the raw error returned from a fetch
or decode of either hop, and `unhandled` for any other internal error —
both fall to the 500 branch of `HandlerWithError.ServeHTTP`. -/
inductive RouteError where
  | missingParam : String → RouteError
  | badRequest : String → RouteError
  | fetchError : RouteError
  | unhandled : RouteError
deriving DecidableEq, Repr

/-- The remote side of the two fetches: `wellKnown` maps the hop-1 URL
to the decoded `WellKnownNodeInfo` (lines 164-172) and `nodeInfo` maps
the hop-2 URL to the decoded `software` field (lines 186-196); an
`error` result stands for a network or JSON-decode failure. -/
structure Network where
  wellKnown : String → Except Unit WellKnownNodeInfo
  nodeInfo : String → Except Unit Software

/-- The link scan of lines 173-184.  In Go, `break` inside a `switch`
leaves only the switch, and the `2.0` case falls through to the `2.1`
case, so each matching link overwrites `nodeInfoUrl` and the loop
always runs to the end: a fold over the links in document order. -/
def scanLinks (links : List Link) : String :=
  links.foldl
    (fun nodeInfoUrl link =>
      if link.rel = rel20 ∨ link.rel = rel21 then link.href else nodeInfoUrl)
    ""

/-- `nodeInfoRoute` (lines 140-207) from the point where the `domain`
form value has been read, with the global cache threaded as state.
Returns the response (or error) and the cache state after the call. -/
def nodeInfoRoute (net : Network) (now : Int) (c : Cache)
    (domainParam : String) : Except RouteError NodeInfo × Cache :=
  if domainParam = "" then (.error (.missingParam "domain"), c)
  else
    match urlParse domainParam with
    | none =>
        (.error (.badRequest ("not an url: " ++ domainParam)), c)
    | some parsed =>
        let domain := normalizeDomain parsed
        let r := c.get now domain
        if r.1.2 then (.ok { domain := domain, software := r.1.1 }, r.2)
        else
          match net.wellKnown
              ("https://" ++ domain ++ "/.well-known/nodeinfo") with
          | .error _ => (.error .fetchError, r.2)
          | .ok wk =>
              let nodeInfoUrl := scanLinks wk.links
              if nodeInfoUrl.length > 0 then
                match net.nodeInfo nodeInfoUrl with
                | .error _ => (.error .fetchError, r.2)
                | .ok sfw =>
                    (.ok { domain := domain, software := sfw },
                     r.2.set now domain sfw)
              else
                (.ok { domain := domain, software := Software.zero }, r.2)

theorem getA_setA_self {α : Type} (m : List (String × α)) (k : String)
    (v : α) : getA (setA m k v) k = some v := by
  induction m with
  | nil => simp [getA, setA]
  | cons hd rest ih =>
      obtain ⟨k1, v1⟩ := hd
      by_cases h : k1 = k <;> simp [getA, setA, h, ih]

theorem getA_setA_ne {α : Type} (m : List (String × α)) (k q : String)
    (v : α) (h : k ≠ q) : getA (setA m k v) q = getA m q := by
  induction m with
  | nil => simp [getA, setA, h]
  | cons hd rest ih =>
      obtain ⟨k1, v1⟩ := hd
      by_cases h1 : k1 = k
      · subst h1; simp [getA, setA, h]
      · simp [getA, setA, h1, ih]

theorem segfaultPrevention_dataOf (c : Cache) (k : String) :
    c.segfaultPrevention.dataOf k = c.dataOf k := rfl

theorem segfaultPrevention_ageOf (c : Cache) (k : String) :
    c.segfaultPrevention.ageOf k = c.ageOf k := rfl

theorem segfaultPrevention_TTL (c : Cache) :
    c.segfaultPrevention.TTL = c.TTL := rfl

/-- Case 1 of `Cache.Get`: a recorded timestamp older than the TTL
hides the entry and leaves the cache as segfault prevention left it. -/
theorem get_stale (c : Cache) (now : Int) (k : String) (a : Int)
    (ha : c.ageOf k = some a) (hs : now - a > c.TTL) :
    c.get now k = ((Software.zero, false), c.segfaultPrevention) := by
  have ha1 : getA ((c.segfaultPrevention.Age).getD []) k = some a := ha
  simp only [Cache.get, ha1, segfaultPrevention_TTL, if_pos hs]

/-- Case 2 of `Cache.Get`: fresh timestamp and a stored value. -/
theorem get_fresh_found (c : Cache) (now : Int) (k : String) (a : Int)
    (v : Software) (ha : c.ageOf k = some a) (hs : ¬ now - a > c.TTL)
    (hd : c.dataOf k = some v) :
    c.get now k = ((v, true), c.segfaultPrevention) := by
  have ha1 : getA ((c.segfaultPrevention.Age).getD []) k = some a := ha
  have hd1 : getA ((c.segfaultPrevention.Data).getD []) k = some v := hd
  simp only [Cache.get, ha1, hd1, segfaultPrevention_TTL, if_neg hs]

/-- Case 2b of `Cache.Get`: fresh timestamp but no stored value; the
Go comma-ok read of `c.Data[key]` yields the zero value and `false`. -/
theorem get_fresh_missing (c : Cache) (now : Int) (k : String) (a : Int)
    (ha : c.ageOf k = some a) (hs : ¬ now - a > c.TTL)
    (hd : c.dataOf k = none) :
    c.get now k = ((Software.zero, false), c.segfaultPrevention) := by
  have ha1 : getA ((c.segfaultPrevention.Age).getD []) k = some a := ha
  have hd1 : getA ((c.segfaultPrevention.Data).getD []) k = none := hd
  simp only [Cache.get, ha1, hd1, segfaultPrevention_TTL, if_neg hs]

/-- Case 3 of `Cache.Get`: no recorded timestamp but a stored value —
lazy adoption stamps the current time. -/
theorem get_adopt (c : Cache) (now : Int) (k : String) (v : Software)
    (ha : c.ageOf k = none) (hd : c.dataOf k = some v) :
    c.get now k =
      ((v, true),
       { c.segfaultPrevention with
           Age := some (setA ((c.Age).getD []) k now) }) := by
  have ha1 : getA ((c.segfaultPrevention.Age).getD []) k = none := ha
  have hd1 : getA ((c.segfaultPrevention.Data).getD []) k = some v := hd
  simp only [Cache.get, ha1, hd1]
  rfl

/-- Case 4 of `Cache.Get`: no timestamp and no value. -/
theorem get_missing (c : Cache) (now : Int) (k : String)
    (ha : c.ageOf k = none) (hd : c.dataOf k = none) :
    c.get now k = ((Software.zero, false), c.segfaultPrevention) := by
  have ha1 : getA ((c.segfaultPrevention.Age).getD []) k = none := ha
  have hd1 : getA ((c.segfaultPrevention.Data).getD []) k = none := hd
  simp only [Cache.get, ha1, hd1]

theorem set_dataOf_self (c : Cache) (now : Int) (k : String)
    (v : Software) : (c.set now k v).dataOf k = some v := by
  simp only [Cache.set, Cache.dataOf, Option.getD_some]
  exact getA_setA_self _ _ _

theorem set_ageOf_self (c : Cache) (now : Int) (k : String)
    (v : Software) : (c.set now k v).ageOf k = some now := by
  simp only [Cache.set, Cache.ageOf, Option.getD_some]
  exact getA_setA_self _ _ _

theorem set_TTL (c : Cache) (now : Int) (k : String) (v : Software) :
    (c.set now k v).TTL = c.TTL := rfl

/-- When `Get` reports `false` it has not mutated anything: the cache
it leaves behind is exactly the segfault-prevention normalization of
the one it received. -/
theorem get_false_cache (c : Cache) (now : Int) (k : String) (z : Software)
    (c1 : Cache) (h : c.get now k = ((z, false), c1)) :
    c1 = c.segfaultPrevention := by
  rcases ha : c.ageOf k with _ | a
  · rcases hd : c.dataOf k with _ | v
    · rw [get_missing c now k ha hd] at h
      exact ((Prod.mk.injEq _ _ _ _ ▸ h).2).symm
    · rw [get_adopt c now k v ha hd] at h
      exact absurd (congrArg (fun r => r.1.2) h) (by simp)
  · by_cases hs : now - a > c.TTL
    · rw [get_stale c now k a ha hs] at h
      exact ((Prod.mk.injEq _ _ _ _ ▸ h).2).symm
    · rcases hd : c.dataOf k with _ | v
      · rw [get_fresh_missing c now k a ha hs hd] at h
        exact ((Prod.mk.injEq _ _ _ _ ▸ h).2).symm
      · rw [get_fresh_found c now k a v ha hs hd] at h
        exact absurd (congrArg (fun r => r.1.2) h) (by simp)

/-- Exhaustive shape of the cache `Get` leaves behind: either untouched
(up to nil-map initialization) or with a freshly stamped timestamp. -/
theorem get_cache_cases (c : Cache) (now : Int) (k : String) :
    (c.get now k).2 = c.segfaultPrevention ∨
    (c.get now k).2 =
      { c.segfaultPrevention with
          Age := some (setA ((c.Age).getD []) k now) } := by
  rcases ha : c.ageOf k with _ | a
  · rcases hd : c.dataOf k with _ | v
    · rw [get_missing c now k ha hd]; left; rfl
    · rw [get_adopt c now k v ha hd]; right; rfl
  · by_cases hs : now - a > c.TTL
    · rw [get_stale c now k a ha hs]; left; rfl
    · rcases hd : c.dataOf k with _ | v
      · rw [get_fresh_missing c now k a ha hs hd]; left; rfl
      · rw [get_fresh_found c now k a v ha hs hd]; left; rfl

/-- `Get` reports `true` only when the value map holds the key, and it
then returns that stored value. -/
theorem get_true_data (c : Cache) (t : Int) (k : String)
    (h : ((c.get t k).1).2 = true) :
    ∃ v, c.dataOf k = some v ∧ ((c.get t k).1).1 = v := by
  rcases ha : c.ageOf k with _ | a
  · rcases hd : c.dataOf k with _ | v
    · rw [get_missing c t k ha hd] at h ⊢; exact absurd h (by simp)
    · rw [get_adopt c t k v ha hd]; exact ⟨v, rfl, rfl⟩
  · by_cases hs : t - a > c.TTL
    · rw [get_stale c t k a ha hs] at h ⊢; exact absurd h (by simp)
    · rcases hd : c.dataOf k with _ | v
      · rw [get_fresh_missing c t k a ha hs hd] at h ⊢
        exact absurd h (by simp)
      · rw [get_fresh_found c t k a v ha hs hd]; exact ⟨v, rfl, rfl⟩

/-- A fixed concrete identity used by the witness theorems. -/
def wsw : Software := ⟨"mastodon", "4.2.0"⟩

/-- C2: after `Set(d, v)` at time `t0`, `Get(d)` at `t0` returns
`(v, true)` (for a nonnegative TTL), `Get(d)` at any `t` with
`t - t0 ≤ TTL` returns `(v, true)`, and `Get(d)` at any `t` with
`t - t0 > TTL` returns `(zero, false)`. -/
theorem cache_set_get_ttl (c : Cache) (d : String) (v : Software)
    (t0 t : Int) :
    (t - t0 ≤ c.TTL → ((c.set t0 d v).get t d).1 = (v, true)) ∧
    (t - t0 > c.TTL → ((c.set t0 d v).get t d).1 = (Software.zero, false)) ∧
    (0 ≤ c.TTL → ((c.set t0 d v).get t0 d).1 = (v, true)) := by
  have ha := set_ageOf_self c t0 d v
  have hd := set_dataOf_self c t0 d v
  have hT := set_TTL c t0 d v
  refine ⟨fun hle => ?_, fun hgt => ?_, fun hpos => ?_⟩
  · rw [get_fresh_found (c.set t0 d v) t d t0 v ha (by omega) hd]
  · rw [get_stale (c.set t0 d v) t d t0 ha (by omega)]
  · rw [get_fresh_found (c.set t0 d v) t0 d t0 v ha (by omega) hd]

theorem cache_set_get_ttl_witness :
    ((({ TTL := 10, Data := none, Age := none } : Cache).set 0
        "example.social" wsw).get 5 "example.social").1 = (wsw, true) :=
  (cache_set_get_ttl { TTL := 10, Data := none, Age := none }
    "example.social" wsw 0 5).1 (by decide)

/-- C3: a bulk-loaded entry (value present, no timestamp) is adopted by
the first `Get`, which stamps the current time and returns the value;
a later `Get` past the TTL window then reports it stale. -/
theorem cache_lazy_adoption (c : Cache) (d : String) (v : Software)
    (t1 t2 : Int) (hd : c.dataOf d = some v) (ha : c.ageOf d = none) :
    (c.get t1 d).1 = (v, true) ∧
    ((c.get t1 d).2).ageOf d = some t1 ∧
    (t2 > t1 + c.TTL →
      (((c.get t1 d).2).get t2 d).1 = (Software.zero, false)) := by
  have hEq := get_adopt c t1 d v ha hd
  have h1 : (c.get t1 d).1 = (v, true) := by rw [hEq]
  have h2 : (c.get t1 d).2 =
      { c.segfaultPrevention with
          Age := some (setA ((c.Age).getD []) d t1) } := by rw [hEq]
  have ha2 : ((c.get t1 d).2).ageOf d = some t1 := by
    rw [h2]; exact getA_setA_self _ _ _
  refine ⟨h1, ha2, fun hgt => ?_⟩
  have hT : ((c.get t1 d).2).TTL = c.TTL := by rw [h2]; rfl
  rw [get_stale _ t2 d t1 ha2 (by omega)]

theorem cache_lazy_adoption_witness :
    ((((⟨10, some [("d", wsw)], none⟩ : Cache).get 0 "d").2).get 11
        "d").1 = (Software.zero, false) :=
  (cache_lazy_adoption ⟨10, some [("d", wsw)], none⟩ "d" wsw 0 11
    (by decide) (by decide)).2.2 (by decide)

/-- C8: a stale `Get` hides the entry but changes nothing: the stored
value stays in the value map, the timestamp stays as recorded, and
every other key is untouched too. -/
theorem cache_stale_frame (c : Cache) (d : String) (a t : Int)
    (v : Software) (hd : c.dataOf d = some v) (ha : c.ageOf d = some a)
    (hs : t - a > c.TTL) :
    (c.get t d).1 = (Software.zero, false) ∧
    (c.get t d).2.dataOf d = some v ∧
    (c.get t d).2.ageOf d = some a ∧
    (∀ k, (c.get t d).2.dataOf k = c.dataOf k ∧
          (c.get t d).2.ageOf k = c.ageOf k) := by
  rw [get_stale c t d a ha hs]
  exact ⟨rfl, hd, ha, fun k => ⟨rfl, rfl⟩⟩

theorem cache_stale_frame_witness :
    ((⟨10, some [("d", wsw)], some [("d", 0)]⟩ : Cache).get 20 "d").1 =
      (Software.zero, false) :=
  (cache_stale_frame ⟨10, some [("d", wsw)], some [("d", 0)]⟩ "d" 0 20
    wsw (by decide) (by decide) (by decide)).1

/-- C9: `Get` and `Set` are total on caches with nil maps, both leave
both maps initialized, and a `Get` that finds no matching entry on
such a cache reports a miss: on the zero-value cache (value map nil),
and equally on a bulk-loaded cache (value map set while the timestamp
map stayed nil) for any key the value map does not hold. -/
theorem cache_nil_map_safety (c : Cache) (now : Int) (k : String)
    (v : Software) :
    ((c.get now k).2.Data ≠ none ∧ (c.get now k).2.Age ≠ none) ∧
    ((c.set now k v).Data ≠ none ∧ (c.set now k v).Age ≠ none) ∧
    (c.Data = none → (c.get now k).1 = (Software.zero, false)) ∧
    (c.Age = none → c.dataOf k = none →
      (c.get now k).1 = (Software.zero, false)) := by
  refine ⟨?_, ⟨by simp [Cache.set], by simp [Cache.set]⟩, fun hD => ?_,
    fun hA hd => ?_⟩
  · rcases get_cache_cases c now k with h | h <;>
      rw [h] <;> exact ⟨by simp [Cache.segfaultPrevention],
        by simp [Cache.segfaultPrevention]⟩
  · have hd : c.dataOf k = none := by simp [Cache.dataOf, hD, getA]
    rcases ha : c.ageOf k with _ | a
    · rw [get_missing c now k ha hd]
    · by_cases hs : now - a > c.TTL
      · rw [get_stale c now k a ha hs]
      · rw [get_fresh_missing c now k a ha hs hd]
  · have ha : c.ageOf k = none := by simp [Cache.ageOf, hA, getA]
    rw [get_missing c now k ha hd]

theorem cache_nil_map_safety_witness :
    ((⟨10, some [("d", wsw)], none⟩ : Cache).get 0 "k").1 =
      (Software.zero, false) :=
  (cache_nil_map_safety ⟨10, some [("d", wsw)], none⟩ 0 "k"
    wsw).2.2.2 rfl (by decide)

/-- C10: a stale entry is never lazily re-adopted — its timestamp is
left as recorded and every later `Get` (time running forward) still
reports a miss — and `Get` reports `true` only for keys the value map
actually holds. -/
theorem cache_stale_persistence (c : Cache) (d : String)
    (a now t2 : Int) (ha : c.ageOf d = some a) (hs : now - a > c.TTL) :
    ((c.get now d).1.2 = false ∧ (c.get now d).2.ageOf d = some a) ∧
    (now ≤ t2 → (((c.get now d).2).get t2 d).1.2 = false) ∧
    (∀ (c0 : Cache) (t : Int) (k : String),
        ((c0.get t k).1).2 = true →
        ∃ v, c0.dataOf k = some v ∧ ((c0.get t k).1).1 = v) := by
  rw [get_stale c now d a ha hs]
  refine ⟨⟨rfl, ha⟩, fun hle => ?_, fun c0 t k h => get_true_data c0 t k h⟩
  · have ha2 : (c.segfaultPrevention).ageOf d = some a := ha
    have hs2 : t2 - a > (c.segfaultPrevention).TTL := by
      rw [segfaultPrevention_TTL]; omega
    show ((c.segfaultPrevention).get t2 d).1.2 = false
    rw [get_stale _ t2 d a ha2 hs2]

theorem cache_stale_persistence_witness :
    ((((⟨10, some [("d", wsw)], some [("d", 0)]⟩ : Cache).get 20
        "d").2).get 25 "d").1.2 = false :=
  (cache_stale_persistence ⟨10, some [("d", wsw)], some [("d", 0)]⟩ "d"
    0 20 25 (by decide) (by decide)).2.1 (by decide)

theorem string_length_pos (s : String) (h : s ≠ "") : s.length > 0 := by
  cases s with
  | mk cs =>
      cases cs with
      | nil => exact absurd rfl h
      | cons c rest => simp [String.length]

/-- Unfolding of the route on a cache hit. -/
theorem route_hit (net : Network) (now : Int) (c : Cache)
    (input : String) (p : ParsedURL) (sfw : Software) (c1 : Cache)
    (h0 : ¬ input = "") (h1 : urlParse input = some p)
    (h2 : c.get now (normalizeDomain p) = ((sfw, true), c1)) :
    nodeInfoRoute net now c input =
      (.ok { domain := normalizeDomain p, software := sfw }, c1) := by
  simp only [nodeInfoRoute, h0, h1, h2, if_false, if_true]

/-- Unfolding of the route on a cache miss, down to the two fetches. -/
theorem route_miss (net : Network) (now : Int) (c : Cache)
    (input : String) (p : ParsedURL) (z : Software) (c1 : Cache)
    (h0 : ¬ input = "") (h1 : urlParse input = some p)
    (h2 : c.get now (normalizeDomain p) = ((z, false), c1)) :
    nodeInfoRoute net now c input =
      match net.wellKnown
          ("https://" ++ normalizeDomain p ++ "/.well-known/nodeinfo") with
      | .error _ => (.error .fetchError, c1)
      | .ok wk =>
          if (scanLinks wk.links).length > 0 then
            match net.nodeInfo (scanLinks wk.links) with
            | .error _ => (.error .fetchError, c1)
            | .ok sfw =>
                (.ok { domain := normalizeDomain p, software := sfw },
                 c1.set now (normalizeDomain p) sfw)
          else
            (.ok { domain := normalizeDomain p, software := Software.zero },
             c1) := by
  simp only [nodeInfoRoute, h0, h1, h2, if_false, Bool.false_eq_true]

/-- A network on which every fetch fails, used by witnesses. -/
def errNet : Network := ⟨fun _ => .error (), fun _ => .error ()⟩

/-- C4: a discovery document with no recognized link makes resolution
succeed with the all-empty identity, without touching the cache and
without performing hop 2 (the result does not depend on the hop-2 side
of the network). -/
theorem route_no_matching_link (net : Network) (now : Int) (c : Cache)
    (input : String) (p : ParsedURL) (z : Software) (c1 : Cache)
    (wk : WellKnownNodeInfo)
    (h0 : ¬ input = "") (h1 : urlParse input = some p)
    (h2 : c.get now (normalizeDomain p) = ((z, false), c1))
    (h3 : net.wellKnown
        ("https://" ++ normalizeDomain p ++ "/.well-known/nodeinfo") =
      .ok wk)
    (h4 : scanLinks wk.links = "") :
    nodeInfoRoute net now c input =
      (.ok { domain := normalizeDomain p, software := Software.zero },
       c1) ∧
    Software.zero.name = "" ∧ Software.zero.version = "" ∧
    (∀ k, c1.dataOf k = c.dataOf k ∧ c1.ageOf k = c.ageOf k) ∧
    (∀ net2 : Network, net2.wellKnown = net.wellKnown →
        nodeInfoRoute net2 now c input = nodeInfoRoute net now c input) := by
  have hmain : nodeInfoRoute net now c input =
      (.ok { domain := normalizeDomain p, software := Software.zero },
       c1) := by
    rw [route_miss net now c input p z c1 h0 h1 h2, h3]
    simp [h4]
  have hframe := get_false_cache c now (normalizeDomain p) z c1 h2
  refine ⟨hmain, rfl, rfl, fun k => ?_, fun net2 hw => ?_⟩
  · rw [hframe]
    exact ⟨segfaultPrevention_dataOf c k, segfaultPrevention_ageOf c k⟩
  · rw [hmain,
      route_miss net2 now c input p z c1 h0 h1 h2, hw, h3]
    simp [h4]

theorem route_no_matching_link_witness :
    nodeInfoRoute
      ⟨fun u =>
          if u = "https://example.social/.well-known/nodeinfo"
          then .ok ⟨[⟨"other", "x"⟩]⟩ else .error (),
        fun _ => .error ()⟩
      0 ⟨10, none, none⟩ "example.social" =
      (.ok { domain := "example.social", software := Software.zero },
       ⟨10, some [], some []⟩) :=
  (route_no_matching_link
    ⟨fun u =>
        if u = "https://example.social/.well-known/nodeinfo"
        then .ok ⟨[⟨"other", "x"⟩]⟩ else .error (),
      fun _ => .error ()⟩
    0 ⟨10, none, none⟩ "example.social" ⟨"", "", "example.social"⟩
    Software.zero ⟨10, some [], some []⟩ ⟨[⟨"other", "x"⟩]⟩
    (by decide) rfl rfl rfl rfl).1

/-- C5: a hop-2 failure surfaces as a fetch error, `Set` is never
reached, and every cache entry (value and timestamp) is left exactly
as it was. -/
theorem route_hop2_failure (net : Network) (now : Int) (c : Cache)
    (input : String) (p : ParsedURL) (z : Software) (c1 : Cache)
    (wk : WellKnownNodeInfo)
    (h0 : ¬ input = "") (h1 : urlParse input = some p)
    (h2 : c.get now (normalizeDomain p) = ((z, false), c1))
    (h3 : net.wellKnown
        ("https://" ++ normalizeDomain p ++ "/.well-known/nodeinfo") =
      .ok wk)
    (h4 : scanLinks wk.links ≠ "")
    (h5 : net.nodeInfo (scanLinks wk.links) = .error ()) :
    nodeInfoRoute net now c input = (.error .fetchError, c1) ∧
    (∀ k, c1.dataOf k = c.dataOf k ∧ c1.ageOf k = c.ageOf k) := by
  have hlen := string_length_pos _ h4
  have hmain : nodeInfoRoute net now c input = (.error .fetchError, c1) := by
    rw [route_miss net now c input p z c1 h0 h1 h2, h3]
    simp [hlen, h5]
  have hframe := get_false_cache c now (normalizeDomain p) z c1 h2
  refine ⟨hmain, fun k => ?_⟩
  rw [hframe]
  exact ⟨segfaultPrevention_dataOf c k, segfaultPrevention_ageOf c k⟩

theorem route_hop2_failure_witness :
    nodeInfoRoute
      ⟨fun u =>
          if u = "https://example.social/.well-known/nodeinfo"
          then .ok ⟨[⟨rel21, "https://example.social/ni"⟩]⟩
          else .error (),
        fun _ => .error ()⟩
      0 ⟨10, some [("other.social", wsw)], some [("other.social", 0)]⟩
      "example.social" =
      (.error .fetchError,
       ⟨10, some [("other.social", wsw)], some [("other.social", 0)]⟩) :=
  (route_hop2_failure
    ⟨fun u =>
        if u = "https://example.social/.well-known/nodeinfo"
        then .ok ⟨[⟨rel21, "https://example.social/ni"⟩]⟩
        else .error (),
      fun _ => .error ()⟩
    0 ⟨10, some [("other.social", wsw)], some [("other.social", 0)]⟩
    "example.social" ⟨"", "", "example.social"⟩ Software.zero
    ⟨10, some [("other.social", wsw)], some [("other.social", 0)]⟩
    ⟨[⟨rel21, "https://example.social/ni"⟩]⟩
    (by decide) rfl rfl rfl (by decide) rfl).1

/-- C7: the empty domain parameter yields `missingParam`, a
non-parseable one yields `badRequest`, and those two error classes are
distinct from each other and from `fetchError` and `unhandled`. -/
theorem route_error_classes :
    (∀ (net : Network) (now : Int) (c : Cache),
        nodeInfoRoute net now c "" =
          (.error (.missingParam "domain"), c)) ∧
    (∀ (net : Network) (now : Int) (c : Cache) (s : String),
        ¬ s = "" → urlParse s = none →
        nodeInfoRoute net now c s =
          (.error (.badRequest ("not an url: " ++ s)), c)) ∧
    (∀ s1 s2 : String,
        RouteError.missingParam s1 ≠ RouteError.badRequest s2 ∧
        RouteError.missingParam s1 ≠ RouteError.fetchError ∧
        RouteError.missingParam s1 ≠ RouteError.unhandled ∧
        RouteError.badRequest s1 ≠ RouteError.fetchError ∧
        RouteError.badRequest s1 ≠ RouteError.unhandled) := by
  refine ⟨fun net now c => by simp [nodeInfoRoute],
    fun net now c s h0 h1 => by simp [nodeInfoRoute, h0, h1],
    fun s1 s2 => ⟨by simp, by simp, by simp, by simp, by simp⟩⟩

theorem route_error_classes_witness :
    nodeInfoRoute errNet 0 ⟨10, none, none⟩ "a\nb" =
      (.error (.badRequest ("not an url: " ++ "a\nb")),
       ⟨10, none, none⟩) :=
  route_error_classes.2.1 errNet 0 ⟨10, none, none⟩ "a\nb"
    (by decide) (by decide)

/-- A network serving a discovery document that lists the 2.1 link
first and the 2.0 link second, with distinguishable identities behind
the two hrefs. -/
def prefNet : Network :=
  ⟨fun u =>
      if u = "https://d.example/.well-known/nodeinfo"
      then .ok ⟨[⟨rel21, "https://d.example/ni21"⟩,
                 ⟨rel20, "https://d.example/ni20"⟩]⟩
      else .error (),
    fun u =>
      if u = "https://d.example/ni21" then .ok ⟨"served-at-21", "1"⟩
      else if u = "https://d.example/ni20" then .ok ⟨"served-at-20", "1"⟩
      else .error ()⟩

/-- C1 counterexample: on a document that contains a 2.1 link followed
by a 2.0 link, the route fetches the 2.0 link's href for hop 2 — the
resolved identity is the one served at the 2.0 URL, not the distinct
one served at the 2.1 URL. -/
theorem route_pref21_counterexample :
    (nodeInfoRoute prefNet 0 ⟨10, none, none⟩ "d.example").1 =
      .ok { domain := "d.example",
            software := ⟨"served-at-20", "1"⟩ } ∧
    (⟨"served-at-20", "1"⟩ : Software) ≠ ⟨"served-at-21", "1"⟩ :=
  ⟨rfl, by decide⟩

/-- C1 (amended): the scan has no version preference — the chosen URL
is the href of the last link in document order whose rel is either
recognized schema identifier: the scan of an empty document chooses no
URL, appending a link with a recognized rel (2.0 or 2.1 alike) makes
its href the chosen URL, and appending any other link changes
nothing. -/
theorem scanLinks_last_match_wins (links : List Link) (l : Link) :
    scanLinks [] = "" ∧
    ((l.rel = rel20 ∨ l.rel = rel21) →
      scanLinks (links ++ [l]) = l.href) ∧
    (¬ (l.rel = rel20 ∨ l.rel = rel21) →
      scanLinks (links ++ [l]) = scanLinks links) := by
  refine ⟨rfl, fun h => ?_, fun h => ?_⟩ <;>
    simp [scanLinks, List.foldl_append, h]

theorem scanLinks_last_match_wins_witness :
    scanLinks ([⟨rel21, "A"⟩] ++ [⟨rel20, "B"⟩]) = "B" :=
  (scanLinks_last_match_wins [⟨rel21, "A"⟩] ⟨rel20, "B"⟩).2.1
    (Or.inl rfl)

/-- C6: whenever the input parses, the route works on the normalized
domain — the path component when the parsed host is empty, the host
component otherwise — as witnessed by the `domain` field of every
successful response; in particular `"example.social"` normalizes to
`"example.social"` and `"https://example.social/path"` to
`"example.social"`. -/
theorem route_domain_normalization :
    (∀ (net : Network) (now : Int) (c : Cache) (s : String)
        (p : ParsedURL) (r : NodeInfo),
        urlParse s = some p →
        (nodeInfoRoute net now c s).1 = .ok r →
        r.domain = normalizeDomain p ∧
        normalizeDomain p = (if p.host = "" then p.path else p.host)) ∧
    (urlParse "example.social").map normalizeDomain =
      some "example.social" ∧
    (urlParse "https://example.social/path").map normalizeDomain =
      some "example.social" := by
  refine ⟨fun net now c s p r h1 h2 => ⟨?_, rfl⟩, by decide, by decide⟩
  by_cases h0 : s = ""
  · subst h0
    simp [nodeInfoRoute] at h2
  · rcases hg : c.get now (normalizeDomain p) with ⟨⟨sfw, b⟩, c1⟩
    cases b
    · rw [route_miss net now c s p sfw c1 h0 h1 hg] at h2
      rcases hw : net.wellKnown
          ("https://" ++ normalizeDomain p ++ "/.well-known/nodeinfo")
        with e | wk
      · rw [hw] at h2; simp at h2
      · rw [hw] at h2
        by_cases hl : (scanLinks wk.links).length > 0
        · simp only [hl, if_true] at h2
          rcases hn : net.nodeInfo (scanLinks wk.links) with e | sfw2
          · rw [hn] at h2; simp at h2
          · rw [hn] at h2
            simp only [Except.ok.injEq] at h2
            rw [← h2]
        · simp only [hl, if_false] at h2
          simp only [Except.ok.injEq] at h2
          rw [← h2]
    · rw [route_hit net now c s p sfw c1 h0 h1 hg] at h2
      simp only [Except.ok.injEq] at h2
      rw [← h2]

theorem route_domain_normalization_witness :
    ({ domain := "example.social", software := wsw } : NodeInfo).domain =
      normalizeDomain ⟨"", "", "example.social"⟩ :=
  (route_domain_normalization.1 errNet 0
    ⟨10, some [("example.social", wsw)], none⟩ "example.social"
    ⟨"", "", "example.social"⟩
    { domain := "example.social", software := wsw } rfl rfl).1

end Fedinfo
